import Mathlib

/-!
Shallow embedding of the answer-grading and band-score engine of the
IELTS practice-test backend (`app/services/{reading,listening,writing,
speaking}_service.py`, together with the record-level helpers in
`app/models/reading.py` and `app/models/speaking.py`).

Modelling conventions:
* Python strings are `String`; `str.lower()` / `str.strip()` act on the
  code-point list, mirroring Python's sequence-of-code-points view.
* The JSON `correct_answers` object keyed by `str(question_number)` is
  an association list keyed by the question number itself.
* SQLAlchemy rows are structures and the database session is an
  explicit record threaded through the service functions.
* A Python `return None` / empty dict is `none`; an uncaught exception
  (the `AttributeError` on a dangling foreign key, or the `ValueError`
  raised by `random.choices` on a non-positive weight total) is
  `Except.error`.
* The single random draw consumed by `random.choices(..., k=1)` is an
  explicit rational parameter `r` with `0 ≤ r < 1` standing for the
  value of `random.random()`.
* Numeric scores are `ℚ`.  Every float the scoring pipeline produces is
  a small dyadic rational on which Python float arithmetic is exact, so
  rational arithmetic is a faithful model.
-/

namespace Ieltsly

/-! ### Answer normalization and matching -/

/-- Python `str.lower()` (modelled on code points). -/
def pyLower (s : String) : String := ⟨s.data.map Char.toLower⟩

/-- Python `str.strip()`: drop leading and trailing whitespace. -/
def pyStrip (s : String) : String :=
  ⟨((s.data.dropWhile Char.isWhitespace).reverse.dropWhile Char.isWhitespace).reverse⟩

/-- `str(ans).lower().strip()` applied to one answer token. -/
def normalizeAnswer (s : String) : String := pyStrip (pyLower s)

/-- `ReadingService.check_answer_correctness` (and the byte-identical
`ListeningService.check_answer_correctness`): normalize both sides,
then compare as lists when `order_matters` and as sets otherwise. -/
def check_answer_correctness (user_answers correct_answers : List String)
    (order_matters : Bool) : Bool :=
  let user_normalized := user_answers.map normalizeAnswer
  let correct_normalized := correct_answers.map normalizeAnswer
  if order_matters then
    user_normalized == correct_normalized
  else
    decide (user_normalized.toFinset = correct_normalized.toFinset)

/-! ### Question packs, answers -/

/-- A reading/listening question pack (the grading unit): an inclusive
question-number range, the reference-answer dictionary and the
order-sensitivity flag.  `ReadingQuestionPack` and
`ListeningQuestionPack` have identical grading-relevant fields, so one
structure serves both. -/
structure QuestionPack where
  question_start : ℕ
  question_end : ℕ
  correct_answers : List (ℕ × List String)
  order_matters : Bool
deriving DecidableEq, Repr

/-- `correct_answers_dict.get(str(q_num), [])`. -/
def getCorrectAnswers (d : List (ℕ × List String)) (q_num : ℕ) : List String :=
  ((d.find? fun kv => kv.1 == q_num).map fun kv => kv.2).getD []

/-- `ReadingQuestionPack.get_correct_answers_for_question` from
`app/models/reading.py` (returns `[]` both for a missing key and for an
empty dictionary). -/
def QuestionPack.get_correct_answers_for_question (p : QuestionPack) (q_num : ℕ) :
    List String :=
  getCorrectAnswers p.correct_answers q_num

/-- `ReadingQuestionPack.check_answer_correctness` from
`app/models/reading.py`: unlike the service-level function it guards
`if not correct_answers: return False` before comparing. -/
def QuestionPack.check_answer_correctness (p : QuestionPack) (q_num : ℕ)
    (user_answers : List String) : Bool :=
  let correct_answers := p.get_correct_answers_for_question q_num
  if correct_answers.isEmpty then false
  else
    let user_normalized := user_answers.map normalizeAnswer
    let correct_normalized := correct_answers.map normalizeAnswer
    if p.order_matters then
      user_normalized == correct_normalized
    else
      decide (user_normalized.toFinset = correct_normalized.toFinset)

/-- One user response row (`ReadingAnswer` / `ListeningAnswer`). -/
structure Answer where
  question_number : ℕ
  user_answers : List String
  is_correct : Bool
deriving DecidableEq, Repr

/-- `range(pack.question_start, pack.question_end + 1)`. -/
def packRange (p : QuestionPack) : List ℕ :=
  List.range' p.question_start (p.question_end + 1 - p.question_start)

/-! ### Band-score tables -/

/-- `ReadingService.calculate_band_score` (Academic Reading scale). -/
def reading_calculate_band_score (correct_answers total_questions : ℕ) : ℚ :=
  if total_questions = 0 then 0
  else
    let percentage : ℚ := (correct_answers : ℚ) / (total_questions : ℚ)
    if percentage ≥ 0.9 then 9
    else if percentage ≥ 0.825 then 8.5
    else if percentage ≥ 0.75 then 8
    else if percentage ≥ 0.675 then 7.5
    else if percentage ≥ 0.6 then 7
    else if percentage ≥ 0.525 then 6.5
    else if percentage ≥ 0.45 then 6
    else if percentage ≥ 0.375 then 5.5
    else if percentage ≥ 0.3 then 5
    else if percentage ≥ 0.225 then 4.5
    else if percentage ≥ 0.15 then 4
    else if percentage ≥ 0.075 then 3.5
    else 3

/-- `ListeningService.calculate_band_score` (Listening scale). -/
def listening_calculate_band_score (correct_answers total_questions : ℕ) : ℚ :=
  if total_questions = 0 then 0
  else
    let percentage : ℚ := (correct_answers : ℚ) / (total_questions : ℚ)
    if percentage ≥ 0.975 then 9
    else if percentage ≥ 0.9 then 8.5
    else if percentage ≥ 0.825 then 8
    else if percentage ≥ 0.75 then 7.5
    else if percentage ≥ 0.675 then 7
    else if percentage ≥ 0.6 then 6.5
    else if percentage ≥ 0.525 then 6
    else if percentage ≥ 0.45 then 5.5
    else if percentage ≥ 0.375 then 5
    else if percentage ≥ 0.3 then 4.5
    else if percentage ≥ 0.225 then 4
    else if percentage ≥ 0.15 then 3.5
    else 3

/-- The published Reading table, as (threshold, band) pairs in
descending order, exactly as printed in the specification. -/
def readingBandTable : List (ℚ × ℚ) :=
  [(0.9, 9), (0.825, 8.5), (0.75, 8), (0.675, 7.5), (0.6, 7), (0.525, 6.5),
   (0.45, 6), (0.375, 5.5), (0.3, 5), (0.225, 4.5), (0.15, 4), (0.075, 3.5)]

/-- The published Listening table, exactly as printed in the
specification. -/
def listeningBandTable : List (ℚ × ℚ) :=
  [(0.975, 9), (0.9, 8.5), (0.825, 8), (0.75, 7.5), (0.675, 7), (0.6, 6.5),
   (0.525, 6), (0.45, 5.5), (0.375, 5), (0.3, 4.5), (0.225, 4), (0.15, 3.5)]

/-- Spec-side table lookup: the band of the first (hence highest)
threshold not exceeding `p`, with floor band 3.0 below the table. -/
def lookupBand : List (ℚ × ℚ) → ℚ → ℚ
  | [], _ => 3
  | (thr, band) :: rest, p => if thr ≤ p then band else lookupBand rest p

/-! ### Writing overall score -/

/-- Python's builtin `round` on exact values: round half to even
(banker's rounding).  On the multiples of 1/4 produced by the writing
pipeline, float arithmetic is exact, so this models
`round(total / 4 * 2)` faithfully. -/
def pyRound (q : ℚ) : ℤ :=
  if q - (⌊q⌋ : ℚ) < 1/2 then ⌊q⌋
  else if 1/2 < q - (⌊q⌋ : ℚ) then ⌊q⌋ + 1
  else if ⌊q⌋ % 2 = 0 then ⌊q⌋ else ⌊q⌋ + 1

/-- The overall-score computation inside `WritingService.calculate_score`:
`score.overall_score = round(total / 4 * 2) / 2` with
`total = task_achievement + coherence_cohesion + lexical_resource +
grammatical_range`. -/
def writing_overall_score (task_achievement coherence_cohesion lexical_resource
    grammatical_range : ℚ) : ℚ :=
  let total := task_achievement + coherence_cohesion + lexical_resource +
    grammatical_range
  (pyRound (total / 4 * 2) : ℚ) / 2

/-- Round half up (ties away from zero for the nonnegative inputs at
hand): the rounding mode the specification asserts for the writing
overall score. -/
def roundHalfUp (q : ℚ) : ℤ := ⌊q + 1/2⌋

/-! ### Reading test structure and grading -/

/-- `ReadingPassage` (grading-relevant part). -/
structure ReadingPassage where
  question_packs : List QuestionPack
deriving DecidableEq, Repr

/-- `ReadingTest` (grading-relevant part). -/
structure ReadingTest where
  id : ℕ
  passages : List ReadingPassage
deriving DecidableEq, Repr

/-- `ReadingSubmission` / `ListeningSubmission` row: one user's attempt,
owning its answers. -/
structure Submission where
  id : ℕ
  test_id : ℕ
  is_completed : Bool
  answers : List Answer
deriving DecidableEq, Repr

/-- `ReadingScore` / `ListeningScore` row as built by `grade_submission`. -/
structure ScoreRow where
  submission_id : ℕ
  correct_answers : ℕ
  total_questions : ℕ
  band_score : ℚ
  percentage : ℚ
deriving DecidableEq, Repr

/-- `user_answer.is_correct = is_correct`: mutate the first answer row
matching the question number (the one `next(...)` returned). -/
def setFirstCorrect : List Answer → ℕ → Bool → List Answer
  | [], _, _ => []
  | a :: rest, q_num, b =>
    if a.question_number == q_num then
      { a with is_correct := b } :: rest
    else
      a :: setFirstCorrect rest q_num b

/-- One iteration of the innermost loop of `grade_submission`
(reading): bump the total, look up the user's answer, and if present
check it, record the flag and bump the correct count.  State is
`(correct_count, total_questions, answers)`. -/
def gradeQuestion (pack : QuestionPack) (st : ℕ × ℕ × List Answer) (q_num : ℕ) :
    ℕ × ℕ × List Answer :=
  let correct_count := st.1
  let total_questions := st.2.1 + 1
  let answers := st.2.2
  match answers.find? fun a => a.question_number == q_num with
  | none => (correct_count, total_questions, answers)
  | some user_answer =>
    let is_correct := check_answer_correctness user_answer.user_answers
      (getCorrectAnswers pack.correct_answers q_num) pack.order_matters
    ((if is_correct then correct_count + 1 else correct_count), total_questions,
      setFirstCorrect answers q_num is_correct)

/-- The per-pack loop: `for q_num in range(question_start, question_end + 1)`. -/
def gradePack (st : ℕ × ℕ × List Answer) (pack : QuestionPack) :
    ℕ × ℕ × List Answer :=
  (packRange pack).foldl (gradeQuestion pack) st

/-- The per-passage loop: `for question_pack in passage.question_packs`. -/
def gradePassage (st : ℕ × ℕ × List Answer) (passage : ReadingPassage) :
    ℕ × ℕ × List Answer :=
  passage.question_packs.foldl gradePack st

/-- The grading core of `ReadingService.grade_submission`: the nested
loops over passages, packs and question numbers. -/
def reading_gradeTest (test : ReadingTest) (answers : List Answer) :
    ℕ × ℕ × List Answer :=
  test.passages.foldl gradePassage (0, 0, answers)

/-- The reading side of the database session. -/
structure ReadingDB where
  submissions : List Submission
  tests : List ReadingTest
  scores : List ScoreRow
deriving DecidableEq, Repr

/-- `ReadingService.grade_submission`: `None` when the submission does
not exist, an `AttributeError` crash when its test row is missing, and
otherwise the graded score together with the updated session (answer
flags written back, score row appended). -/
def reading_grade_submission (db : ReadingDB) (submission_id : ℕ) :
    Except String (Option ScoreRow × ReadingDB) :=
  match db.submissions.find? fun s => s.id == submission_id with
  | none => .ok (none, db)
  | some submission =>
    match db.tests.find? fun t => t.id == submission.test_id with
    | none => .error "AttributeError: NoneType has no attribute passages"
    | some test =>
      let graded := reading_gradeTest test submission.answers
      let correct_count := graded.1
      let total_questions := graded.2.1
      let percentage : ℚ :=
        if total_questions > 0 then
          (correct_count : ℚ) / (total_questions : ℚ) * 100
        else 0
      let band_score := reading_calculate_band_score correct_count total_questions
      let score : ScoreRow :=
        ⟨submission_id, correct_count, total_questions, band_score, percentage⟩
      .ok (some score,
        { db with
          submissions := db.submissions.map fun s =>
            if s.id == submission_id then { s with answers := graded.2.2 } else s
          scores := db.scores ++ [score] })

/-- The progress record returned by `ReadingService.get_user_progress`. -/
structure ProgressInfo where
  total_questions : ℤ
  answered_questions : ℕ
  progress_percentage : ℚ
  is_completed : Bool
deriving DecidableEq, Repr

/-- `ReadingService.get_user_progress`: total questions summed as
`question_end - question_start + 1` over all packs, answered = number
of answer rows, percentage unclamped. -/
def reading_get_user_progress (db : ReadingDB) (submission_id : ℕ) :
    Except String (Option ProgressInfo) :=
  match db.submissions.find? fun s => s.id == submission_id with
  | none => .ok none
  | some submission =>
    match db.tests.find? fun t => t.id == submission.test_id with
    | none => .error "AttributeError: NoneType has no attribute passages"
    | some test =>
      let total_questions : ℤ := test.passages.foldl
        (fun t pa => pa.question_packs.foldl
          (fun t pk => t + ((pk.question_end : ℤ) - (pk.question_start : ℤ) + 1)) t)
        0
      let answered_questions := submission.answers.length
      .ok (some
        { total_questions := total_questions
          answered_questions := answered_questions
          progress_percentage :=
            if total_questions > 0 then
              (answered_questions : ℚ) / (total_questions : ℚ) * 100
            else 0
          is_completed := submission.is_completed })

/-! ### Listening test structure and grading -/

/-- `ListeningSection` (grading-relevant part). -/
structure ListeningSection where
  section_type : String
  question_packs : List QuestionPack
deriving DecidableEq, Repr

/-- `ListeningTest` (grading-relevant part). -/
structure ListeningTest where
  id : ℕ
  sections : List ListeningSection
deriving DecidableEq, Repr

/-- One entry of the per-section `section_scores` dictionary built by
`ListeningService.grade_submission`. -/
structure SectionScore where
  correct : ℕ
  total : ℕ
  percentage : ℚ
deriving DecidableEq, Repr

/-- Python dict assignment `d[k] = v` on the association-list model:
overwrite an existing key, else append. -/
def dictSet (d : List (String × SectionScore)) (k : String) (v : SectionScore) :
    List (String × SectionScore) :=
  if d.any fun kv => kv.1 == k then
    d.map fun kv => if kv.1 == k then (k, v) else kv
  else d ++ [(k, v)]

/-- Innermost loop of `ListeningService.grade_submission`: like
`gradeQuestion` but also tallies the enclosing section.  State is
`(section_correct, section_total, correct_count, total_questions, answers)`. -/
def gradeQuestionL (pack : QuestionPack) (st : ℕ × ℕ × ℕ × ℕ × List Answer)
    (q_num : ℕ) : ℕ × ℕ × ℕ × ℕ × List Answer :=
  let section_correct := st.1
  let section_total := st.2.1 + 1
  let correct_count := st.2.2.1
  let total_questions := st.2.2.2.1 + 1
  let answers := st.2.2.2.2
  match answers.find? fun a => a.question_number == q_num with
  | none => (section_correct, section_total, correct_count, total_questions, answers)
  | some user_answer =>
    let is_correct := check_answer_correctness user_answer.user_answers
      (getCorrectAnswers pack.correct_answers q_num) pack.order_matters
    ((if is_correct then section_correct + 1 else section_correct), section_total,
      (if is_correct then correct_count + 1 else correct_count), total_questions,
      setFirstCorrect answers q_num is_correct)

/-- Per-pack loop of the listening grader. -/
def gradePackL (st : ℕ × ℕ × ℕ × ℕ × List Answer) (pack : QuestionPack) :
    ℕ × ℕ × ℕ × ℕ × List Answer :=
  (packRange pack).foldl (gradeQuestionL pack) st

/-- Per-section loop of `ListeningService.grade_submission`: reset the
section tallies, grade the section's packs, and store the section score
under `section.section_type`. -/
def gradeSectionL (st : ℕ × ℕ × List Answer × List (String × SectionScore))
    (s : ListeningSection) : ℕ × ℕ × List Answer × List (String × SectionScore) :=
  let correct_count := st.1
  let total_questions := st.2.1
  let answers := st.2.2.1
  let section_scores := st.2.2.2
  let graded := s.question_packs.foldl gradePackL
    (0, 0, correct_count, total_questions, answers)
  let section_correct := graded.1
  let section_total := graded.2.1
  (graded.2.2.1, graded.2.2.2.1, graded.2.2.2.2,
    dictSet section_scores s.section_type
      ⟨section_correct, section_total,
        if section_total > 0 then
          (section_correct : ℚ) / (section_total : ℚ) * 100
        else 0⟩)

/-- The grading core of `ListeningService.grade_submission`. -/
def listening_gradeTest (test : ListeningTest) (answers : List Answer) :
    ℕ × ℕ × List Answer × List (String × SectionScore) :=
  test.sections.foldl gradeSectionL (0, 0, answers, [])

/-- The listening side of the database session. -/
structure ListeningDB where
  submissions : List Submission
  tests : List ListeningTest
  scores : List ScoreRow
deriving DecidableEq, Repr

/-- `ListeningService.grade_submission`. -/
def listening_grade_submission (db : ListeningDB) (submission_id : ℕ) :
    Except String (Option ScoreRow × ListeningDB) :=
  match db.submissions.find? fun s => s.id == submission_id with
  | none => .ok (none, db)
  | some submission =>
    match db.tests.find? fun t => t.id == submission.test_id with
    | none => .error "AttributeError: NoneType has no attribute sections"
    | some test =>
      let graded := listening_gradeTest test submission.answers
      let correct_count := graded.1
      let total_questions := graded.2.1
      let percentage : ℚ :=
        if total_questions > 0 then
          (correct_count : ℚ) / (total_questions : ℚ) * 100
        else 0
      let band_score := listening_calculate_band_score correct_count total_questions
      let score : ScoreRow :=
        ⟨submission_id, correct_count, total_questions, band_score, percentage⟩
      .ok (some score,
        { db with
          submissions := db.submissions.map fun s =>
            if s.id == submission_id then { s with answers := graded.2.2.1 } else s
          scores := db.scores ++ [score] })

/-- `section_questions` accumulated in
`ListeningService.get_current_section`: all question numbers of a
section's packs. -/
def sectionQuestionNumbers (s : ListeningSection) : List ℕ :=
  s.question_packs.flatMap fun p => List.range' p.question_start
    (p.question_end + 1 - p.question_start)

/-- Inner pack loop of `get_current_section`: on the first pack
containing `max_question`, return the section if it still has
unanswered questions; on a fully answered section the Python `continue`
just advances to the section's next pack, so the loop falls through. -/
def scanPacksForCurrent (answers : List Answer) (max_question : ℕ)
    (s : ListeningSection) : List QuestionPack → Option String
  | [] => none
  | p :: rest =>
    if p.question_start ≤ max_question ∧ max_question ≤ p.question_end then
      let section_questions := sectionQuestionNumbers s
      let answered_in_section := (answers.map fun a => a.question_number).filter
        fun q => q ∈ section_questions
      if answered_in_section.length < section_questions.length then
        some s.section_type
      else
        scanPacksForCurrent answers max_question s rest
    else
      scanPacksForCurrent answers max_question s rest

/-- Outer section loop of `get_current_section`. -/
def scanSectionsForCurrent (answers : List Answer) (max_question : ℕ) :
    List ListeningSection → Option String
  | [] => none
  | s :: rest =>
    match scanPacksForCurrent answers max_question s s.question_packs with
    | some t => some t
    | none => scanSectionsForCurrent answers max_question rest

/-- `ListeningService.get_current_section`. -/
def get_current_section (answers : List Answer) (test : ListeningTest) :
    Option String :=
  if answers.isEmpty then
    test.sections.head?.map fun s => s.section_type
  else
    let max_question := (answers.map fun a => a.question_number).foldl max 0
    scanSectionsForCurrent answers max_question test.sections

/-- The progress record returned by `ListeningService.get_user_progress`
(same fields as reading plus `current_section`). -/
structure ListeningProgressInfo where
  total_questions : ℤ
  answered_questions : ℕ
  progress_percentage : ℚ
  is_completed : Bool
  current_section : Option String
deriving DecidableEq, Repr

/-- `ListeningService.get_user_progress`. -/
def listening_get_user_progress (db : ListeningDB) (submission_id : ℕ) :
    Except String (Option ListeningProgressInfo) :=
  match db.submissions.find? fun s => s.id == submission_id with
  | none => .ok none
  | some submission =>
    match db.tests.find? fun t => t.id == submission.test_id with
    | none => .error "AttributeError: NoneType has no attribute sections"
    | some test =>
      let total_questions : ℤ := test.sections.foldl
        (fun t se => se.question_packs.foldl
          (fun t pk => t + ((pk.question_end : ℤ) - (pk.question_start : ℤ) + 1)) t)
        0
      let answered_questions := submission.answers.length
      .ok (some
        { total_questions := total_questions
          answered_questions := answered_questions
          progress_percentage :=
            if total_questions > 0 then
              (answered_questions : ℚ) / (total_questions : ℚ) * 100
            else 0
          is_completed := submission.is_completed
          current_section := get_current_section submission.answers test })

/-! ### Speaking: weighted next-question selection -/

/-- `SpeakingQuestion` (selection-relevant part; `difficulty_weight` is
an integer column). -/
structure SpeakingQuestion where
  id : ℕ
  difficulty_weight : ℤ
  is_active : Bool
deriving DecidableEq, Repr

/-- `itertools.accumulate(weights)`: running partial sums. -/
def accumulateFrom (acc : ℚ) : List ℚ → List ℚ
  | [] => []
  | w :: ws => (acc + w) :: accumulateFrom (acc + w) ws

/-- `cum_weights = list(accumulate(weights))`. -/
def cumWeights (ws : List ℚ) : List ℚ := accumulateFrom 0 ws

/-- `bisect.bisect_right(a, x, lo, hi)` exactly as in CPython:
`while lo < hi: mid = (lo+hi)//2; if x < a[mid]: hi = mid else lo = mid+1`. -/
def bisectRight (a : List ℚ) (x : ℚ) (lo hi : ℕ) : ℕ :=
  if h : lo < hi then
    if x < a.getD ((lo + hi) / 2) 0 then
      bisectRight a x lo ((lo + hi) / 2)
    else
      bisectRight a x ((lo + hi) / 2 + 1) hi
  else lo
termination_by hi - lo
decreasing_by
  · omega
  · omega

/-- `SpeakingService.get_next_question` restricted to its selection
core: the active questions of the topic are the input list, and
`random.choices(questions, weights=weights, k=1)[0]` is inlined with
its CPython semantics (cumulative weights, `ValueError` on a
non-positive total, then `population[bisect(cum_weights, random()*total,
0, n-1)]` with `r` standing for `random.random()`). -/
def speaking_get_next_question (questions : List SpeakingQuestion) (r : ℚ) :
    Except String (Option SpeakingQuestion) :=
  let qs := questions.filter fun q => q.is_active
  if qs.isEmpty then .ok none
  else
    let weights := qs.map fun q => (q.difficulty_weight : ℚ)
    let cum_weights := cumWeights weights
    let total := cum_weights.getLastD 0
    if total ≤ 0 then
      .error "ValueError: Total of weights must be greater than zero"
    else
      .ok (some (qs.getD (bisectRight cum_weights (r * total) 0 (qs.length - 1))
        ⟨0, 0, false⟩))

/-! ### Auxiliary definitions used by the theorems -/

/-- The grading-relevant projection of an answer row: everything the
grader reads (it writes only `is_correct`). -/
def proj (a : Answer) : ℕ × List String := (a.question_number, a.user_answers)

/-- Write the `is_correct` field. -/
def icSet (b : Bool) (a : Answer) : Answer := { a with is_correct := b }

/-- All (pack, question-number) pairs of one pack. -/
def packQs (pack : QuestionPack) : List (QuestionPack × ℕ) :=
  (packRange pack).map fun q => (pack, q)

/-- All (pack, question-number) pairs a reading test grades, in grading
order. -/
def readingTestQs (t : ReadingTest) : List (QuestionPack × ℕ) :=
  t.passages.flatMap fun pa => pa.question_packs.flatMap packQs

/-- All (pack, question-number) pairs a listening test grades, in
grading order. -/
def listeningTestQs (t : ListeningTest) : List (QuestionPack × ℕ) :=
  t.sections.flatMap fun se => se.question_packs.flatMap packQs

/-- The grading loop flattened over an explicit question sequence. -/
def gradeFlat (qs : List (QuestionPack × ℕ)) (st : ℕ × ℕ × List Answer) :
    ℕ × ℕ × List Answer :=
  qs.foldl (fun st pq => gradeQuestion pq.1 st pq.2) st

/-- The flag value one grading step would write, as a function of the
projected answer list alone. -/
def gradeWriteOf (pl : List (ℕ × List String)) (pq : QuestionPack × ℕ) :
    Option (ℕ × Bool) :=
  (pl.find? fun x => x.1 == pq.2).map fun x =>
    (pq.2, check_answer_correctness x.2 (getCorrectAnswers pq.1.correct_answers pq.2)
      pq.1.order_matters)

/-- The full write sequence a grading run performs. -/
def writesF (qs : List (QuestionPack × ℕ)) (pl : List (ℕ × List String)) :
    List (ℕ × Bool) :=
  qs.filterMap (gradeWriteOf pl)

/-- The contribution of one question to the correct count. -/
def corrOf (pl : List (ℕ × List String)) (pq : QuestionPack × ℕ) : ℕ :=
  match gradeWriteOf pl pq with
  | some (_, true) => 1
  | _ => 0

/-- Replay a write sequence. -/
def applyWrites (l : List Answer) (ws : List (ℕ × Bool)) : List Answer :=
  ws.foldl (fun l w => setFirstCorrect l w.1 w.2) l

/-- Index of the first answer row with the given question number. -/
def firstIdx : List Answer → ℕ → Option ℕ
  | [], _ => none
  | a :: rest, q_num =>
    if a.question_number == q_num then some 0
    else (firstIdx rest q_num).map (· + 1)

/-- The last value a write sequence assigns to cell `i`, where `fidx`
maps question numbers to cells. -/
def lastWriteAt (fidx : ℕ → Option ℕ) (ws : List (ℕ × Bool)) (i : ℕ) :
    Option Bool :=
  ws.foldl (fun acc w => if fidx w.1 = some i then some w.2 else acc) none

/-- Total question count of a reading test, summed per pack as in the
spec (`Σ (end - start + 1)`). -/
def readingTotalQuestions (t : ReadingTest) : ℕ :=
  (t.passages.map fun pa =>
    (pa.question_packs.map fun pk => pk.question_end + 1 - pk.question_start).sum).sum

/-- The question numbers a listening test grades, flattened. -/
def listeningTotalQuestions (t : ListeningTest) : ℕ :=
  (t.sections.map fun se =>
    (se.question_packs.map fun pk => pk.question_end + 1 - pk.question_start).sum).sum

/-- Does some pack of `s` contain the question number `m`, while `s`
still has unanswered question slots?  (The section predicate under
which `get_current_section` actually reports a section.) -/
def sectionPred (answers : List Answer) (m : ℕ) (s : ListeningSection) : Bool :=
  (s.question_packs.any fun p =>
    decide (p.question_start ≤ m ∧ m ≤ p.question_end)) &&
  decide (((answers.map fun a => a.question_number).filter
      fun q => q ∈ sectionQuestionNumbers s).length <
    (sectionQuestionNumbers s).length)

/-- Spec-style characterization of `get_current_section` on a nonempty
answer set: the first section having a pack that contains the highest
answered question number, provided it is not fully answered; `none`
otherwise. -/
def currentSectionSpec (answers : List Answer) (test : ListeningTest) :
    Option String :=
  if answers.isEmpty then
    test.sections.head?.map fun s => s.section_type
  else
    let m := (answers.map fun a => a.question_number).foldl max 0
    (test.sections.find? (sectionPred answers m)).map fun s => s.section_type

/-! ### Concrete fixtures used by witnesses and counterexamples -/

/-- A reading database whose one submission holds an answer to question
5, outside the single pack's range [1,1]. -/
def rdbOverflow : ReadingDB :=
  { submissions := [⟨1, 1, false, [⟨1, ["a"], false⟩, ⟨5, ["b"], false⟩]⟩]
    tests := [⟨1, [⟨[⟨1, 1, [(1, ["a"])], true⟩]⟩]⟩]
    scores := [] }

/-- The listening analogue of `rdbOverflow`. -/
def ldbOverflow : ListeningDB :=
  { submissions := [⟨1, 1, false, [⟨1, ["a"], false⟩, ⟨9, ["z"], false⟩]⟩]
    tests := [⟨1, [⟨"section_1", [⟨1, 1, [(1, ["a"])], true⟩]⟩]⟩]
    scores := [] }

/-- A two-section listening test: section_1 covers questions 1-2,
section_2 covers questions 3-4. -/
def testC3 : ListeningTest :=
  ⟨1, [⟨"section_1", [⟨1, 2, [(1, ["a"]), (2, ["b"])], true⟩]⟩,
       ⟨"section_2", [⟨3, 4, [(3, ["c"]), (4, ["d"])], true⟩]⟩]⟩

/-- Answers fully covering section_1 of `testC3` and none of section_2. -/
def ansC3 : List Answer := [⟨1, ["a"], false⟩, ⟨2, ["b"], false⟩]

/-- A one-question reading database whose single answer is correct. -/
def rdbGraded0 : ReadingDB :=
  { submissions := [⟨1, 1, false, [⟨1, ["a"], false⟩]⟩]
    tests := [⟨1, [⟨[⟨1, 1, [(1, ["a"])], true⟩]⟩]⟩]
    scores := [] }

/-- `rdbGraded0` after one grading call. -/
def rdbGraded1 : ReadingDB :=
  { submissions := [⟨1, 1, false, [⟨1, ["a"], true⟩]⟩]
    tests := [⟨1, [⟨[⟨1, 1, [(1, ["a"])], true⟩]⟩]⟩]
    scores := [⟨1, 1, 1, 9, 100⟩] }

/-- A one-question listening database whose single answer is correct. -/
def ldbGraded0 : ListeningDB :=
  { submissions := [⟨1, 1, false, [⟨1, ["a"], false⟩]⟩]
    tests := [⟨1, [⟨"section_1", [⟨1, 1, [(1, ["a"])], true⟩]⟩]⟩]
    scores := [] }

/-- `ldbGraded0` after one grading call. -/
def ldbGraded1 : ListeningDB :=
  { submissions := [⟨1, 1, false, [⟨1, ["a"], true⟩]⟩]
    tests := [⟨1, [⟨"section_1", [⟨1, 1, [(1, ["a"])], true⟩]⟩]⟩]
    scores := [⟨1, 1, 1, 9, 100⟩] }

/-- A reading database whose submission has no answers at all. -/
def rdbEmptyAns : ReadingDB :=
  { submissions := [⟨1, 1, false, []⟩]
    tests := [⟨1, [⟨[⟨1, 1, [(1, ["a"])], true⟩]⟩]⟩]
    scores := [] }

/-- A listening database whose submission has no answers at all. -/
def ldbEmptyAns : ListeningDB :=
  { submissions := [⟨1, 1, false, []⟩]
    tests := [⟨1, [⟨"section_1", [⟨1, 1, [(1, ["a"])], true⟩]⟩]⟩]
    scores := [] }


/-! ## Theorems -/

/-! ### C1: empty reference-answer lists -/

/-- C1 counterexample: the service-level answer matcher marks an empty
user answer list checked against an empty reference list as correct
(for both values of `order_matters`), so the claim that an empty
reference list always yields `false` fails on the code. -/
theorem C1_counterexample :
    check_answer_correctness [] [] true = true ∧
    check_answer_correctness [] [] false = true := by
  decide

/-- C1 (amended): the service-level `check_answer_correctness` with an
empty reference list returns `true` exactly when the user answer list
is also empty (so a non-empty user answer never matches an unconfigured
question, but an empty one does); the record-level
`ReadingQuestionPack.check_answer_correctness` does return `false`
whenever its per-question reference list is empty. -/
theorem C1_empty_reference :
    (∀ (user : List String) (b : Bool),
      check_answer_correctness user [] b = user.isEmpty) ∧
    (∀ (p : QuestionPack) (q_num : ℕ) (user : List String),
      p.get_correct_answers_for_question q_num = [] →
      p.check_answer_correctness q_num user = false) := by
  constructor
  · intro user b
    cases user with
    | nil => cases b <;> simp [check_answer_correctness]
    | cons a l => cases b <;> simp [check_answer_correctness]
  · intro p q_num user h
    simp [QuestionPack.check_answer_correctness, h]

/-- C1 witness: instantiation of `C1_empty_reference` at concrete
inputs. -/
theorem C1_witness :
    check_answer_correctness ["x"] [] true = (["x"] : List String).isEmpty ∧
    QuestionPack.check_answer_correctness ⟨1, 1, [], true⟩ 1 ["x"] = false :=
  ⟨C1_empty_reference.1 ["x"] true, C1_empty_reference.2 ⟨1, 1, [], true⟩ 1 ["x"] rfl⟩

/-! ### C2: writing overall score rounding -/

/-- C2 counterexample: at criterion scores (6.5, 6.0, 6.0, 6.5) the
doubled average is exactly 12.5; the code (Python `round`, half to
even) produces overall 6.0, while the claimed
`round_half_up((sum/4)*2)/2` formula produces 6.5. -/
theorem C2_counterexample :
    writing_overall_score 6.5 6 6 6.5 = 6 ∧
    ((roundHalfUp ((6.5 + 6 + 6 + 6.5) / 4 * 2) : ℚ) / 2 = 6.5) := by
  constructor <;> norm_num [writing_overall_score, pyRound, roundHalfUp]

/-- `pyRound` rounds to a nearest integer and breaks exact halves
toward the even integer. -/
theorem pyRound_spec (q : ℚ) :
    |q - (pyRound q : ℚ)| < 1/2 ∨
    (|q - (pyRound q : ℚ)| = 1/2 ∧ pyRound q % 2 = 0) := by
  have h1 : (⌊q⌋ : ℚ) ≤ q := Int.floor_le q
  have h2 : q < ⌊q⌋ + 1 := Int.lt_floor_add_one q
  unfold pyRound
  split_ifs with hf1 hf2 hpar
  · left
    rw [abs_of_nonneg (by linarith)]
    linarith
  · left
    rw [abs_of_nonpos (by push_cast; linarith)]
    push_cast
    linarith
  · right
    constructor
    · rw [abs_of_nonneg (by linarith)]
      linarith
    · exact hpar
  · right
    constructor
    · rw [abs_of_nonpos (by push_cast; linarith)]
      push_cast
      linarith
    · omega

/-- C2 (amended): the writing overall score is half of an integer `k`
nearest to the doubled average `(sum/4)*2`, with exact ties broken
toward the even integer (Python banker's rounding) rather than upward;
on the spec's non-tie example (6.5, 6.0, 7.0, 6.0) the result is still
6.5. -/
theorem C2_overall_half_even :
    (∀ a b c d : ℚ, ∃ k : ℤ, writing_overall_score a b c d = (k : ℚ) / 2 ∧
      (|(a + b + c + d) / 4 * 2 - (k : ℚ)| < 1/2 ∨
       (|(a + b + c + d) / 4 * 2 - (k : ℚ)| = 1/2 ∧ k % 2 = 0))) ∧
    writing_overall_score 6.5 6 7 6 = 6.5 := by
  constructor
  · intro a b c d
    exact ⟨pyRound ((a + b + c + d) / 4 * 2), rfl, pyRound_spec _⟩
  · norm_num [writing_overall_score, pyRound]

/-! ### C3: listening current-section computation -/

/-- C3 counterexample: on `testC3` with section_1 fully answered and
section_2 untouched, `get_current_section` returns `none` instead of
advancing to section_2, even though not every section is fully
answered. -/
theorem C3_counterexample :
    get_current_section ansC3 testC3 = none ∧
    ¬(∀ s ∈ testC3.sections, ∀ q ∈ sectionQuestionNumbers s,
      q ∈ ansC3.map fun a => a.question_number) := by
  decide

/-- The inner pack loop of `get_current_section` reports the section
exactly when some pack contains the probe number and the section is not
fully answered. -/
theorem scanPacks_eq (answers : List Answer) (m : ℕ) (s : ListeningSection)
    (packs : List QuestionPack) :
    scanPacksForCurrent answers m s packs =
      if (packs.any fun p => decide (p.question_start ≤ m ∧ m ≤ p.question_end)) &&
          decide (((answers.map fun a => a.question_number).filter
              fun q => q ∈ sectionQuestionNumbers s).length <
            (sectionQuestionNumbers s).length) then
        some s.section_type
      else none := by
  induction packs with
  | nil => simp [scanPacksForCurrent]
  | cons p rest ih =>
    simp only [scanPacksForCurrent, List.any_cons, ih]
    by_cases h1 : p.question_start ≤ m ∧ m ≤ p.question_end <;>
      by_cases h2 : ((answers.map fun a => a.question_number).filter
          fun q => q ∈ sectionQuestionNumbers s).length <
        (sectionQuestionNumbers s).length <;>
      simp [h1, h2]

/-- The outer section loop of `get_current_section` is a `find?` over
`sectionPred`. -/
theorem scanSections_eq (answers : List Answer) (m : ℕ)
    (sections : List ListeningSection) :
    scanSectionsForCurrent answers m sections =
      (sections.find? (sectionPred answers m)).map fun s => s.section_type := by
  induction sections with
  | nil => simp [scanSectionsForCurrent]
  | cons s rest ih =>
    rw [scanSectionsForCurrent, scanPacks_eq,
      show ((s.question_packs.any fun p =>
          decide (p.question_start ≤ m ∧ m ≤ p.question_end)) &&
        decide (((answers.map fun a => a.question_number).filter
            fun q => q ∈ sectionQuestionNumbers s).length <
          (sectionQuestionNumbers s).length)) = sectionPred answers m s from rfl,
      List.find?_cons]
    cases hp : sectionPred answers m s <;> simp [ih]

/-- C3 (amended): with no answers `get_current_section` returns the
first section (none for a sectionless test); otherwise, with `m` the
highest answered question number, it returns the first section in test
order that has a pack containing `m` and is not yet fully answered, and
`none` in every other case — in particular it does not advance to the
next section when the section containing `m` is fully answered. -/
theorem C3_current_section_characterization :
    ∀ (answers : List Answer) (test : ListeningTest),
      get_current_section answers test = currentSectionSpec answers test := by
  intro answers test
  by_cases h : answers.isEmpty <;>
    simp [get_current_section, currentSectionSpec, h, scanSections_eq]

/-! ### C4: band-score tables -/

/-- The reading band chain equals lookup in the published table. -/
theorem reading_band_eq (c t : ℕ) : reading_calculate_band_score c t =
    if t = 0 then 0 else lookupBand readingBandTable ((c : ℚ) / (t : ℚ)) := by
  simp only [reading_calculate_band_score, readingBandTable, lookupBand, ge_iff_le]

/-- The listening band chain equals lookup in the published table. -/
theorem listening_band_eq (c t : ℕ) : listening_calculate_band_score c t =
    if t = 0 then 0 else lookupBand listeningBandTable ((c : ℚ) / (t : ℚ)) := by
  simp only [listening_calculate_band_score, listeningBandTable, lookupBand,
    ge_iff_le]

/-- C4: both band-score functions return 0.0 for an empty test and
otherwise the band of the highest published threshold not exceeding
`correct/total`, bit-for-bit from the skill-specific tables. -/
theorem C4_band_tables : ∀ (c t : ℕ),
    (reading_calculate_band_score c t =
      if t = 0 then 0 else lookupBand readingBandTable ((c : ℚ) / (t : ℚ))) ∧
    (listening_calculate_band_score c t =
      if t = 0 then 0 else lookupBand listeningBandTable ((c : ℚ) / (t : ℚ))) :=
  fun c t => ⟨reading_band_eq c t, listening_band_eq c t⟩

/-! ### C8: band-score monotonicity -/

/-- `lookupBand` never exceeds a common upper bound of the table's
bands and the floor band. -/
theorem lookupBand_le_of_all (l : List (ℚ × ℚ)) (b : ℚ) (h3 : 3 ≤ b)
    (hb : ∀ x ∈ l, x.2 ≤ b) (p : ℚ) : lookupBand l p ≤ b := by
  induction l with
  | nil => exact h3
  | cons hd tl ih =>
    obtain ⟨thr, band⟩ := hd
    simp only [lookupBand]
    split_ifs
    · exact hb (thr, band) (List.mem_cons_self _ _)
    · exact ih fun x hx => hb x (List.mem_cons_of_mem _ hx)

/-- `lookupBand` is monotone in the percentage for tables with weakly
descending bands all at least the floor band. -/
theorem lookupBand_mono (l : List (ℚ × ℚ)) (h3 : ∀ x ∈ l, 3 ≤ x.2)
    (hd : l.Pairwise fun x y => y.2 ≤ x.2) {p1 p2 : ℚ} (hp : p1 ≤ p2) :
    lookupBand l p1 ≤ lookupBand l p2 := by
  induction l with
  | nil => exact le_refl 3
  | cons hdp tl ih =>
    obtain ⟨thr, band⟩ := hdp
    rw [List.pairwise_cons] at hd
    simp only [lookupBand]
    split_ifs with h1 h2 h2
    · exact le_refl band
    · exact absurd (le_trans h1 hp) h2
    · exact lookupBand_le_of_all tl band (h3 (thr, band) (List.mem_cons_self _ _))
        (fun x hx => hd.1 x hx) p1
    · exact ih (fun x hx => h3 x (List.mem_cons_of_mem _ hx)) hd.2

/-- Every band in the reading table is at least 3. -/
theorem readingBandTable_ge3 : ∀ x ∈ readingBandTable, (3 : ℚ) ≤ x.2 := by
  intro x hx
  simp only [readingBandTable, List.mem_cons, List.not_mem_nil, or_false] at hx
  rcases hx with rfl | rfl | rfl | rfl | rfl | rfl | rfl | rfl | rfl | rfl | rfl | rfl <;>
    norm_num

/-- The reading table's bands are weakly descending. -/
theorem readingBandTable_desc :
    readingBandTable.Pairwise fun x y => y.2 ≤ x.2 := by
  simp only [readingBandTable]
  norm_num [List.pairwise_cons]

/-- Every band in the listening table is at least 3. -/
theorem listeningBandTable_ge3 : ∀ x ∈ listeningBandTable, (3 : ℚ) ≤ x.2 := by
  intro x hx
  simp only [listeningBandTable, List.mem_cons, List.not_mem_nil, or_false] at hx
  rcases hx with rfl | rfl | rfl | rfl | rfl | rfl | rfl | rfl | rfl | rfl | rfl | rfl <;>
    norm_num

/-- The listening table's bands are weakly descending. -/
theorem listeningBandTable_desc :
    listeningBandTable.Pairwise fun x y => y.2 ≤ x.2 := by
  simp only [listeningBandTable]
  norm_num [List.pairwise_cons]

/-- C8: for a fixed total, both band-score functions are monotonically
non-decreasing in the correct count. -/
theorem C8_band_monotone : ∀ (t c1 c2 : ℕ), c1 ≤ c2 →
    reading_calculate_band_score c1 t ≤ reading_calculate_band_score c2 t ∧
    listening_calculate_band_score c1 t ≤ listening_calculate_band_score c2 t := by
  intro t c1 c2 h
  by_cases ht : t = 0
  · rw [reading_band_eq, reading_band_eq, listening_band_eq, listening_band_eq]
    simp [ht]
  · have hp : (c1 : ℚ) / t ≤ (c2 : ℚ) / t := by gcongr
    constructor
    · rw [reading_band_eq, reading_band_eq, if_neg ht, if_neg ht]
      exact lookupBand_mono _ readingBandTable_ge3 readingBandTable_desc hp
    · rw [listening_band_eq, listening_band_eq, if_neg ht, if_neg ht]
      exact lookupBand_mono _ listeningBandTable_ge3 listeningBandTable_desc hp

/-- C8 witness: instantiation of `C8_band_monotone` at (t, c1, c2) =
(40, 20, 30). -/
theorem C8_witness :
    reading_calculate_band_score 20 40 ≤ reading_calculate_band_score 30 40 ∧
    listening_calculate_band_score 20 40 ≤ listening_calculate_band_score 30 40 :=
  C8_band_monotone 40 20 30 (by norm_num)

/-! ### C7: unordered matching is permutation-invariant -/

/-- C7: with `order_matters = false` the matcher's verdict is invariant
under permuting either the user answers or the reference answers. -/
theorem C7_unordered_permutation_invariant :
    ∀ (u u' c c' : List String), u.Perm u' → c.Perm c' →
      check_answer_correctness u c false = check_answer_correctness u' c' false := by
  intro u u' c c' hu hc
  simp only [check_answer_correctness]
  rw [List.toFinset_eq_of_perm _ _ (hu.map normalizeAnswer),
    List.toFinset_eq_of_perm _ _ (hc.map normalizeAnswer)]
  rfl

/-- C7 witness: instantiation of `C7_unordered_permutation_invariant`
at concrete permuted lists. -/
theorem C7_witness :
    check_answer_correctness ["b", "a"] ["dog", "cat"] false =
      check_answer_correctness ["a", "b"] ["cat", "dog"] false :=
  C7_unordered_permutation_invariant ["b", "a"] ["a", "b"] ["dog", "cat"]
    ["cat", "dog"] (by decide) (by decide)

/-! ### C10: progress percentage can exceed 100 -/

/-- C10: the progress computation counts every answer row, including
rows whose question number lies outside every pack's range, and does
not clamp: on `rdbOverflow` / `ldbOverflow` (one in-range and one
out-of-range answer over a single one-question pack) both services
report 200% progress. -/
theorem C10_progress_overflow :
    reading_get_user_progress rdbOverflow 1 = .ok (some ⟨1, 2, 200, false⟩) ∧
    listening_get_user_progress ldbOverflow 1 =
      .ok (some ⟨1, 2, 200, false, none⟩) ∧
    (200 : ℚ) > 100 := by
  refine ⟨?_, ?_, by norm_num⟩
  · simp only [reading_get_user_progress, rdbOverflow, List.find?]
    norm_num
  · simp only [listening_get_user_progress, ldbOverflow, List.find?]
    norm_num [get_current_section, scanSectionsForCurrent, scanPacksForCurrent]


/-! ### C6: weighted next-question selection -/

/-- C6 counterexample: a single-candidate set whose question has
difficulty weight 0 makes `random.choices` raise `ValueError` instead
of returning the candidate, so a singleton candidate set of arbitrary
weight is not always returned. -/
theorem C6_counterexample : speaking_get_next_question [⟨1, 0, true⟩] (1/2) =
    .error "ValueError: Total of weights must be greater than zero" := by
  simp [speaking_get_next_question, cumWeights, accumulateFrom, List.filter]

/-- Loop invariant of CPython's `bisect_right`: the result `j` lies in
`[lo, hi]`, with `a[j-1] ≤ x` unless `j = lo`, and `x < a[j]` unless
`j = hi`. -/
theorem bisect_invariant (a : List ℚ) (x : ℚ) :
    ∀ lo hi, lo ≤ hi →
      lo ≤ bisectRight a x lo hi ∧ bisectRight a x lo hi ≤ hi ∧
      (bisectRight a x lo hi = lo ∨ a.getD (bisectRight a x lo hi - 1) 0 ≤ x) ∧
      (bisectRight a x lo hi = hi ∨ x < a.getD (bisectRight a x lo hi) 0) := by
  intro lo hi
  induction lo, hi using bisectRight.induct a x with
  | case1 lo hi h hlt ih =>
    intro _
    rw [bisectRight, dif_pos h, if_pos hlt]
    obtain ⟨i1, i2, i3, i4⟩ := ih (by omega)
    refine ⟨i1, by omega, i3, Or.inr ?_⟩
    rcases i4 with heq | hlt2
    · rw [heq]; exact hlt
    · exact hlt2
  | case2 lo hi h hge ih =>
    intro _
    rw [bisectRight, dif_pos h, if_neg hge]
    obtain ⟨i1, i2, i3, i4⟩ := ih (by omega)
    refine ⟨by omega, i2, Or.inr ?_, i4⟩
    rcases i3 with heq | hle
    · rw [heq]
      simpa using not_lt.mp hge
    · exact hle
  | case3 lo hi h =>
    intro hle
    rw [bisectRight, dif_neg h]
    exact ⟨le_refl lo, hle, Or.inl rfl, Or.inl (by omega)⟩

/-- `accumulate` preserves length. -/
theorem accumulateFrom_length (ws : List ℚ) : ∀ acc, (accumulateFrom acc ws).length = ws.length := by
  induction ws with
  | nil => intro acc; rfl
  | cons w ws ih => intro acc; simp [accumulateFrom, ih]

/-- The i-th cumulative weight is the sum of the first i+1 weights. -/
theorem accumulateFrom_getD (ws : List ℚ) :
    ∀ acc i, i < ws.length →
      (accumulateFrom acc ws).getD i 0 = acc + (ws.take (i + 1)).sum := by
  induction ws with
  | nil => intro acc i h; simp at h
  | cons w ws ih =>
    intro acc i h
    cases i with
    | zero => simp [accumulateFrom]
    | succ i =>
      simp only [accumulateFrom, List.getD_cons_succ, List.take_succ_cons,
        List.sum_cons]
      rw [ih (acc + w) i (by simpa using h)]
      ring

/-- The i-th cumulative weight is the sum of the first i+1 weights. -/
theorem cumWeights_getD (ws : List ℚ) (i : ℕ) (h : i < ws.length) :
    (cumWeights ws).getD i 0 = (ws.take (i + 1)).sum := by
  rw [cumWeights, accumulateFrom_getD ws 0 i h, zero_add]

/-- `cum_weights` has one entry per weight. -/
theorem cumWeights_length (ws : List ℚ) : (cumWeights ws).length = ws.length :=
  accumulateFrom_length ws 0

/-- C6 (amended): for every candidate set and every random draw
`r ∈ [0,1)`, a returned question always has positive difficulty weight
(so a zero-weight question is never selected whenever the call returns
at all), and a singleton candidate set of positive weight is always
returned; a candidate set whose weight total is not positive (e.g. a
lone zero-weight question) raises `ValueError` instead. -/
theorem C6_weighted_selection :
    ∀ (questions : List SpeakingQuestion) (q : SpeakingQuestion) (r : ℚ),
      0 ≤ r → r < 1 →
      ((speaking_get_next_question questions r = .ok (some q) →
        0 < q.difficulty_weight) ∧
       (q.is_active = true → 0 < q.difficulty_weight →
        speaking_get_next_question [q] r = .ok (some q))) := by
  intro questions q r hr0 hr1
  constructor
  · intro hres
    simp only [speaking_get_next_question] at hres
    set qs := questions.filter fun q => q.is_active with hqs
    by_cases hemp : qs.isEmpty
    · rw [if_pos hemp] at hres
      exact absurd hres (by simp)
    rw [if_neg hemp] at hres
    set weights := qs.map fun q => (q.difficulty_weight : ℚ) with hweights
    set cum := cumWeights weights with hcum
    set total := cum.getLastD 0 with htotal
    by_cases htot : total ≤ 0
    · rw [if_pos htot] at hres
      exact absurd hres (by simp)
    rw [if_neg htot] at hres
    push_neg at htot
    -- basic sizes
    have hn : 0 < qs.length :=
      List.length_pos.mpr (by simpa [List.isEmpty_iff] using hemp)
    have hwlen : weights.length = qs.length := by simp [hweights]
    have hclen : cum.length = qs.length := by
      rw [hcum, cumWeights_length, hwlen]
    -- total is the last cumulative weight
    have htotal_eq : total = cum.getD (qs.length - 1) 0 := by
      rw [htotal, List.getLastD_eq_getLast?, List.getLast?_eq_getElem?, hclen]
      cases h : cum[qs.length - 1]? with
      | none =>
        rw [List.getElem?_eq_none_iff] at h
        omega
      | some v =>
        have : cum.getD (qs.length - 1) 0 = v := by
          rw [List.getD_eq_getElem?_getD, h]
          rfl
        rw [this]
        rfl
    -- the random point
    set x := r * total with hx
    have hx0 : 0 ≤ x := mul_nonneg hr0 (le_of_lt htot)
    have hxlt : x < total := by
      calc x = r * total := hx
      _ < 1 * total := by
          exact mul_lt_mul_of_pos_right hr1 htot
      _ = total := one_mul total
    -- the bisect invariant
    set j := bisectRight cum x 0 (qs.length - 1) with hj
    obtain ⟨j1, j2, j3, j4⟩ := bisect_invariant cum x 0 (qs.length - 1) (by omega)
    rw [← hj] at j2 j3 j4
    clear_value j
    have hjlt : j < qs.length := by omega
    -- x < cum[j]
    have hupper : x < cum.getD j 0 := by
      rcases j4 with heq | hlt
      · rw [heq, ← htotal_eq]; exact hxlt
      · exact hlt
    -- the selected question's weight is positive
    have hq : q = qs.getD j ⟨0, 0, false⟩ := by
      injection hres with h1
      injection h1 with h2
      exact h2.symm
    have hwj : weights.getD j 0 = (q.difficulty_weight : ℚ) := by
      have : weights.getD j ((SpeakingQuestion.mk 0 0 false).difficulty_weight : ℚ) =
          ((qs.getD j ⟨0, 0, false⟩).difficulty_weight : ℚ) := by
        rw [hweights, List.getD_map]
      simpa [hq] using this
    have hcumj : cum.getD j 0 = (weights.take (j + 1)).sum := by
      rw [hcum, cumWeights_getD _ _ (by omega)]
    have hwpos : 0 < weights.getD j 0 := by
      cases j with
      | zero =>
        have h1 : cum.getD 0 0 = (weights.take 1).sum := by
          rw [hcum, cumWeights_getD _ _ (by omega)]
        have h2 : (weights.take 1).sum = weights.getD 0 0 := by
          cases hw : weights with
          | nil =>
            rw [hw] at hwlen
            simp at hwlen
            omega
          | cons a l => simp [hw]
        rw [h1, h2] at hupper
        exact lt_of_le_of_lt hx0 hupper
      | succ i =>
        have hlow : cum.getD i 0 ≤ x := by
          rcases j3 with heq | hle
          · omega
          · rwa [Nat.add_sub_cancel] at hle
        have hcumi : cum.getD i 0 = (weights.take (i + 1)).sum := by
          rw [hcum, cumWeights_getD _ _ (by omega)]
        have hsucc : (weights.take (i + 1 + 1)).sum =
            (weights.take (i + 1)).sum + weights[i + 1] := by
          exact List.sum_take_succ _ _ (by omega)
        have hgetd : weights.getD (i + 1) 0 = weights[i + 1] :=
          List.getD_eq_getElem _ _ (by omega)
        rw [hgetd]
        have := lt_of_le_of_lt hlow hupper
        rw [hcumi, hcumj, hsucc] at this
        linarith
    rw [hwj] at hwpos
    exact_mod_cast hwpos
  · intro hact hwpos
    simp only [speaking_get_next_question, List.filter, hact]
    have hcum : cumWeights [((q.difficulty_weight : ℚ))] = [(q.difficulty_weight : ℚ)] := by
      simp [cumWeights, accumulateFrom]
    simp only [List.isEmpty_cons, List.map, hcum]
    have htot : ¬((([(q.difficulty_weight : ℚ)]).getLastD 0) ≤ 0) := by
      have h : ([(q.difficulty_weight : ℚ)]).getLastD 0 = (q.difficulty_weight : ℚ) := rfl
      rw [h]
      push_neg
      exact_mod_cast hwpos
    rw [if_neg (by simp), if_neg htot]
    have hb : bisectRight [(q.difficulty_weight : ℚ)]
        (r * ([(q.difficulty_weight : ℚ)]).getLastD 0) 0 (([q] : List SpeakingQuestion).length - 1) = 0 := by
      rw [bisectRight]
      simp
    rw [hb]
    rfl

/-- C6 witness: instantiation of `C6_weighted_selection` on a singleton
active candidate of weight 2 with draw 1/2. -/
theorem C6_witness : speaking_get_next_question [⟨1, 2, true⟩] (1/2) =
    .ok (some ⟨1, 2, true⟩) :=
  (C6_weighted_selection [⟨1, 2, true⟩] ⟨1, 2, true⟩ (1/2) (by norm_num)
    (by norm_num)).2 rfl (by norm_num)

/-! ### C5 and C9: grading machinery -/

/-- Writing a correctness flag never changes what the grader reads. -/
theorem setFirstCorrect_map_proj (l : List Answer) (q_num : ℕ) (b : Bool) :
    (setFirstCorrect l q_num b).map proj = l.map proj := by
  induction l with
  | nil => rfl
  | cons a rest ih =>
    simp only [setFirstCorrect]
    split_ifs
    · rfl
    · simp only [List.map_cons, ih]

/-- `firstIdx` only depends on the grader-visible projection. -/
theorem firstIdx_congr : ∀ (l m : List Answer) (q_num : ℕ),
    l.map proj = m.map proj → firstIdx l q_num = firstIdx m q_num := by
  intro l
  induction l with
  | nil =>
    intro m q_num h
    cases m with
    | nil => rfl
    | cons b mt => simp at h
  | cons a lt ih =>
    intro m q_num h
    cases m with
    | nil => simp at h
    | cons b mt =>
      simp only [List.map_cons, List.cons.injEq] at h
      have hqn : a.question_number = b.question_number := by
        have := congrArg Prod.fst h.1
        simpa [proj] using this
      simp only [firstIdx, hqn, ih mt q_num h.2]

/-- Pointwise description of `setFirstCorrect`. -/
theorem setFirstCorrect_getElem? : ∀ (l : List Answer) (q_num : ℕ) (b : Bool) (i : ℕ),
    (setFirstCorrect l q_num b)[i]? =
      if firstIdx l q_num = some i then (l[i]?).map (icSet b) else l[i]? := by
  intro l
  induction l with
  | nil =>
    intro q_num b i
    simp [setFirstCorrect, firstIdx]
  | cons a rest ih =>
    intro q_num b i
    by_cases ha : a.question_number == q_num
    · cases i with
      | zero => simp [setFirstCorrect, firstIdx, ha, icSet]
      | succ j => simp [setFirstCorrect, firstIdx, ha]
    · cases i with
      | zero =>
        simp only [Bool.not_eq_true] at ha
        cases hf : firstIdx rest q_num <;> simp [setFirstCorrect, firstIdx, ha, hf]
      | succ j =>
        simp only [Bool.not_eq_true] at ha
        cases hf : firstIdx rest q_num <;>
          simp [setFirstCorrect, firstIdx, ha, hf, ih q_num b j]

/-- Unfold the accumulator of the `lastWriteAt` fold. -/
theorem lastWriteAt_foldl (fidx : ℕ → Option ℕ) (i : ℕ) :
    ∀ (ws : List (ℕ × Bool)) (s : Option Bool),
      ws.foldl (fun acc w => if fidx w.1 = some i then some w.2 else acc) s =
        (match lastWriteAt fidx ws i with
         | some b => some b
         | none => s) := by
  intro ws
  induction ws with
  | nil => intro s; rfl
  | cons w V ih =>
    intro s
    simp only [lastWriteAt, List.foldl_cons]
    rw [ih, ih]
    cases hV : lastWriteAt fidx V i with
    | some b => rfl
    | none => by_cases hw : fidx w.1 = some i <;> simp [hw]

/-- `lastWriteAt` on a cons. -/
theorem lastWriteAt_cons (fidx : ℕ → Option ℕ) (w : ℕ × Bool)
    (V : List (ℕ × Bool)) (i : ℕ) :
    lastWriteAt fidx (w :: V) i =
      (match lastWriteAt fidx V i with
       | some b => some b
       | none => if fidx w.1 = some i then some w.2 else none) := by
  have h : lastWriteAt fidx (w :: V) i =
      V.foldl (fun acc w => if fidx w.1 = some i then some w.2 else acc)
        (if fidx w.1 = some i then some w.2 else none) := rfl
  rw [h, lastWriteAt_foldl]

/-- Overwriting the flag twice is the same as writing it once. -/
theorem icSet_icSet (b b' : Bool) (a : Answer) : icSet b (icSet b' a) = icSet b a := rfl

/-- Replaying writes never changes what the grader reads. -/
theorem applyWrites_map_proj : ∀ (ws : List (ℕ × Bool)) (l : List Answer),
    (applyWrites l ws).map proj = l.map proj := by
  intro ws
  induction ws with
  | nil => intro l; rfl
  | cons w V ih =>
    intro l
    simp only [applyWrites, List.foldl_cons] at *
    rw [ih, setFirstCorrect_map_proj]

/-- Pointwise description of a whole write replay: each cell holds the
last value written to it. -/
theorem applyWrites_getElem? : ∀ (ws : List (ℕ × Bool)) (l : List Answer) (i : ℕ),
    (applyWrites l ws)[i]? =
      (match lastWriteAt (firstIdx l) ws i with
       | some b => (l[i]?).map (icSet b)
       | none => l[i]?) := by
  intro ws
  induction ws with
  | nil => intro l i; rfl
  | cons w V ih =>
    intro l i
    have hfi : firstIdx (setFirstCorrect l w.1 w.2) = firstIdx l :=
      funext fun q_num => firstIdx_congr _ _ q_num (setFirstCorrect_map_proj l w.1 w.2)
    have hstep : applyWrites l (w :: V) = applyWrites (setFirstCorrect l w.1 w.2) V := rfl
    rw [hstep, ih, hfi, lastWriteAt_cons, setFirstCorrect_getElem?]
    cases hV : lastWriteAt (firstIdx l) V i with
    | some b =>
      by_cases hw : firstIdx l w.1 = some i
      · rw [if_pos hw]
        cases l[i]? <;> rfl
      · rw [if_neg hw]
    | none =>
      by_cases hw : firstIdx l w.1 = some i <;> simp [hw]

/-- Replaying the same write sequence a second time is a no-op. -/
theorem applyWrites_idem (l : List Answer) (ws : List (ℕ × Bool)) :
    applyWrites (applyWrites l ws) ws = applyWrites l ws := by
  apply List.ext_getElem?
  intro i
  have hfi : firstIdx (applyWrites l ws) = firstIdx l :=
    funext fun q_num => firstIdx_congr _ _ q_num (applyWrites_map_proj ws l)
  rw [applyWrites_getElem?, hfi, applyWrites_getElem?]
  cases lastWriteAt (firstIdx l) ws i with
  | some b =>
    cases l[i]? <;> rfl
  | none => rfl

/-- `find?` on the projected list mirrors `find?` on the answer rows. -/
theorem find?_map_proj (l : List Answer) (q_num : ℕ) :
    (l.map proj).find? (fun x => x.1 == q_num) =
      (l.find? fun a => a.question_number == q_num).map proj := by
  rw [List.find?_map]
  rfl

/-- Decomposition of the flattened grading loop: the counts and the
write sequence are functions of the projected answer list alone, and
the output list is the input with the writes replayed. -/
theorem gradeFlat_eq : ∀ (qs : List (QuestionPack × ℕ)) (c t : ℕ) (l : List Answer),
    gradeFlat qs (c, t, l) =
      (c + (qs.map (corrOf (l.map proj))).sum, t + qs.length,
        applyWrites l (writesF qs (l.map proj))) := by
  intro qs
  induction qs with
  | nil =>
    intro c t l
    simp [gradeFlat, writesF, applyWrites]
  | cons pq rest ih =>
    intro c t l
    have hstep : gradeFlat (pq :: rest) (c, t, l) =
        gradeFlat rest (gradeQuestion pq.1 (c, t, l) pq.2) := rfl
    rw [hstep]
    cases hfind : l.find? (fun a => a.question_number == pq.2) with
    | none =>
      have hw : gradeWriteOf (l.map proj) pq = none := by
        rw [gradeWriteOf, find?_map_proj, hfind]
        rfl
      have hg : gradeQuestion pq.1 (c, t, l) pq.2 = (c, t + 1, l) := by
        simp [gradeQuestion, hfind]
      rw [hg, ih]
      simp only [writesF, List.filterMap_cons, hw, List.map_cons, List.sum_cons,
        corrOf, List.length_cons]
      congr 1
      · omega
      congr 1
      omega
    | some a =>
      have hw : gradeWriteOf (l.map proj) pq =
          some (pq.2, check_answer_correctness a.user_answers
            (getCorrectAnswers pq.1.correct_answers pq.2) pq.1.order_matters) := by
        rw [gradeWriteOf, find?_map_proj, hfind]
        rfl
      have hg : gradeQuestion pq.1 (c, t, l) pq.2 =
          ((if check_answer_correctness a.user_answers
              (getCorrectAnswers pq.1.correct_answers pq.2) pq.1.order_matters
            then c + 1 else c), t + 1,
            setFirstCorrect l pq.2 (check_answer_correctness a.user_answers
              (getCorrectAnswers pq.1.correct_answers pq.2) pq.1.order_matters)) := by
        simp [gradeQuestion, hfind]
      rw [hg, ih, setFirstCorrect_map_proj]
      simp only [writesF, List.filterMap_cons, hw, List.map_cons, List.sum_cons,
        corrOf, List.length_cons]
      congr 1
      · cases check_answer_correctness a.user_answers
          (getCorrectAnswers pq.1.correct_answers pq.2) pq.1.order_matters <;>
          simp <;> omega
      congr 1
      omega

/-- Grading a second time from the first run's answer list reproduces
the same counts and leaves the answer list unchanged. -/
theorem gradeFlat_idem (qs : List (QuestionPack × ℕ)) (l : List Answer) :
    gradeFlat qs (0, 0, (gradeFlat qs (0, 0, l)).2.2) = gradeFlat qs (0, 0, l) := by
  have h1 := gradeFlat_eq qs 0 0 l
  have hl1 : (gradeFlat qs (0, 0, l)).2.2 =
      applyWrites l (writesF qs (l.map proj)) := by rw [h1]
  rw [hl1, gradeFlat_eq, applyWrites_map_proj, applyWrites_idem, h1]

/-- Folding over a `flatMap` is a fold of folds. -/
theorem foldl_flatMap {α β γ : Type _} (g : α → List β) (f : γ → β → γ) :
    ∀ (l : List α) (init : γ),
      (l.flatMap g).foldl f init = l.foldl (fun st a => (g a).foldl f st) init := by
  intro l
  induction l with
  | nil => intro init; rfl
  | cons a rest ih =>
    intro init
    rw [List.flatMap_cons, List.foldl_append, ih, List.foldl_cons]

/-- Folds of pointwise-equal step functions agree. -/
theorem foldl_ext {α γ : Type _} (f g : γ → α → γ) (h : ∀ st a, f st a = g st a) :
    ∀ (l : List α) (init : γ), l.foldl f init = l.foldl g init := by
  intro l
  induction l with
  | nil => intro init; rfl
  | cons a rest ih =>
    intro init
    rw [List.foldl_cons, List.foldl_cons, h, ih]

/-- A projection that commutes with the step function commutes with the
fold. -/
theorem foldl_proj {σ τ α : Type _} (P : σ → τ) (f : σ → α → σ) (g : τ → α → τ)
    (h : ∀ st a, P (f st a) = g (P st) a) :
    ∀ (l : List α) (st : σ), P (l.foldl f st) = l.foldl g (P st) := by
  intro l
  induction l with
  | nil => intro st; rfl
  | cons a rest ih =>
    intro st
    rw [List.foldl_cons, List.foldl_cons, ih, h]

/-- The per-pack loop is the flattened loop on the pack's questions. -/
theorem gradePack_eq_flat (st : ℕ × ℕ × List Answer) (pack : QuestionPack) :
    gradePack st pack = gradeFlat (packQs pack) st := by
  rw [gradePack, gradeFlat, packQs, List.foldl_map]

/-- Folding `gradePack` over packs is the flattened loop on all their
questions. -/
theorem packsFold_eq_flat (packs : List QuestionPack) (st : ℕ × ℕ × List Answer) :
    gradeFlat (packs.flatMap packQs) st = packs.foldl gradePack st := by
  rw [gradeFlat, foldl_flatMap]
  apply foldl_ext
  intro st pk
  exact (gradePack_eq_flat st pk).symm

/-- The reading grading core is the flattened loop over all the test's
(pack, question) pairs. -/
theorem reading_gradeTest_eq_flat (test : ReadingTest) (answers : List Answer) :
    reading_gradeTest test answers = gradeFlat (readingTestQs test) (0, 0, answers) := by
  rw [reading_gradeTest, readingTestQs, gradeFlat, foldl_flatMap]
  apply foldl_ext
  intro st pa
  rw [gradePassage]
  exact (packsFold_eq_flat pa.question_packs st).symm

/-- Erasing the section tallies from one listening grading step yields
the reading grading step. -/
theorem gradeQuestionL_erase (pack : QuestionPack)
    (st : ℕ × ℕ × ℕ × ℕ × List Answer) (q_num : ℕ) :
    (gradeQuestionL pack st q_num).2.2 = gradeQuestion pack st.2.2 q_num := by
  obtain ⟨sc, stot, c, t, l⟩ := st
  simp only [gradeQuestionL, gradeQuestion]
  cases hf : l.find? (fun a => a.question_number == q_num) <;> simp [hf]

/-- Erasing the section tallies from the per-pack listening loop. -/
theorem gradePackL_erase (st : ℕ × ℕ × ℕ × ℕ × List Answer) (pk : QuestionPack) :
    (gradePackL st pk).2.2 = gradePack st.2.2 pk :=
  foldl_proj (fun st => st.2.2) (gradeQuestionL pk) (gradeQuestion pk)
    (fun st q_num => gradeQuestionL_erase pk st q_num) (packRange pk) st

/-- Erasing the section-score dictionary from the per-section listening
loop. -/
theorem gradeSectionL_erase (st : ℕ × ℕ × List Answer × List (String × SectionScore))
    (s : ListeningSection) :
    ((gradeSectionL st s).1, (gradeSectionL st s).2.1, (gradeSectionL st s).2.2.1) =
      s.question_packs.foldl gradePack (st.1, st.2.1, st.2.2.1) := by
  obtain ⟨c, t, l, ss⟩ := st
  simp only [gradeSectionL]
  exact foldl_proj (fun st => st.2.2) gradePackL gradePack gradePackL_erase
    s.question_packs (0, 0, c, t, l)

/-- The listening grading core computes the same counts and answer list
as the flattened reading-style loop. -/
theorem listening_gradeTest_erase (test : ListeningTest) (answers : List Answer) :
    ((listening_gradeTest test answers).1, (listening_gradeTest test answers).2.1,
      (listening_gradeTest test answers).2.2.1) =
      gradeFlat (listeningTestQs test) (0, 0, answers) := by
  have h := foldl_proj (fun st => (st.1, st.2.1, st.2.2.1)) gradeSectionL
    (fun st s => s.question_packs.foldl gradePack st) gradeSectionL_erase
    test.sections (0, 0, answers, [])
  rw [listening_gradeTest, h, listeningTestQs, gradeFlat, foldl_flatMap]
  apply foldl_ext
  intro st se
  exact (packsFold_eq_flat se.question_packs st).symm

/-- On an empty answer list the grading loop counts the questions and
changes nothing. -/
theorem gradeFlat_empty_answers (qs : List (QuestionPack × ℕ)) :
    ∀ (c t : ℕ), gradeFlat qs (c, t, []) = (c, t + qs.length, []) := by
  induction qs with
  | nil => intro c t; simp [gradeFlat]
  | cons pq rest ih =>
    intro c t
    have hstep : gradeFlat (pq :: rest) (c, t, []) = gradeFlat rest (c, t + 1, []) := rfl
    rw [hstep, ih]
    simp only [List.length_cons]
    congr 1
    congr 1
    omega

/-- The flattened question list of a reading test has one entry per
question slot. -/
theorem readingTestQs_length (test : ReadingTest) :
    (readingTestQs test).length = readingTotalQuestions test := by
  simp [readingTestQs, readingTotalQuestions, List.length_flatMap, packQs,
    packRange, Function.comp_def, List.length_range']

/-- The flattened question list of a listening test has one entry per
question slot. -/
theorem listeningTestQs_length (test : ListeningTest) :
    (listeningTestQs test).length = listeningTotalQuestions test := by
  simp [listeningTestQs, listeningTotalQuestions, List.length_flatMap, packQs,
    packRange, Function.comp_def, List.length_range']

/-- Re-grading the reading core on its own output is a no-op. -/
theorem reading_gradeTest_idem (test : ReadingTest) (answers : List Answer) :
    reading_gradeTest test ((reading_gradeTest test answers).2.2) =
      reading_gradeTest test answers := by
  have h := reading_gradeTest_eq_flat test answers
  rw [h, reading_gradeTest_eq_flat test ((gradeFlat (readingTestQs test)
    (0, 0, answers)).2.2)]
  exact gradeFlat_idem _ _

/-- C5: grading a submission id that matches no submission row reports
not-found (the `None` the route maps to a 404) with the session
untouched — no score row appended, no answer flag written — while
grading an existing submission whose answers are missing never fails:
every question still counts toward the total, none toward the correct
count, and the call succeeds with a correct count of zero. -/
theorem C5_not_found_and_unanswered :
    (∀ (db : ReadingDB) (sid : ℕ),
      db.submissions.find? (fun s => s.id == sid) = none →
      reading_grade_submission db sid = .ok (none, db)) ∧
    (∀ (db : ListeningDB) (sid : ℕ),
      db.submissions.find? (fun s => s.id == sid) = none →
      listening_grade_submission db sid = .ok (none, db)) ∧
    (∀ (db : ReadingDB) (sid : ℕ) (sub : Submission) (test : ReadingTest),
      db.submissions.find? (fun s => s.id == sid) = some sub →
      db.tests.find? (fun t => t.id == sub.test_id) = some test →
      sub.answers = [] →
      ∃ db', reading_grade_submission db sid =
        .ok (some ⟨sid, 0, readingTotalQuestions test,
          reading_calculate_band_score 0 (readingTotalQuestions test), 0⟩, db')) ∧
    (∀ (db : ListeningDB) (sid : ℕ) (sub : Submission) (test : ListeningTest),
      db.submissions.find? (fun s => s.id == sid) = some sub →
      db.tests.find? (fun t => t.id == sub.test_id) = some test →
      sub.answers = [] →
      ∃ db', listening_grade_submission db sid =
        .ok (some ⟨sid, 0, listeningTotalQuestions test,
          listening_calculate_band_score 0 (listeningTotalQuestions test), 0⟩, db')) := by
  refine ⟨?_, ?_, ?_, ?_⟩
  · intro db sid h
    simp [reading_grade_submission, h]
  · intro db sid h
    simp [listening_grade_submission, h]
  · intro db sid sub test hfs hft hans
    have hg : reading_gradeTest test sub.answers =
        (0, readingTotalQuestions test, []) := by
      rw [hans, reading_gradeTest_eq_flat, gradeFlat_empty_answers]
      rw [readingTestQs_length]
      simp
    refine ⟨{ db with
        submissions := db.submissions.map fun s =>
          if s.id == sid then { s with answers := [] } else s,
        scores := db.scores ++ [⟨sid, 0, readingTotalQuestions test,
          reading_calculate_band_score 0 (readingTotalQuestions test), 0⟩] }, ?_⟩
    simp only [reading_grade_submission, hfs, hft, hg]
    norm_num
  · intro db sid sub test hfs hft hans
    have hg0 : ((listening_gradeTest test sub.answers).1,
        (listening_gradeTest test sub.answers).2.1,
        (listening_gradeTest test sub.answers).2.2.1) =
        (0, listeningTotalQuestions test, []) := by
      rw [listening_gradeTest_erase, hans, gradeFlat_empty_answers]
      rw [listeningTestQs_length]
      simp
    have h1 : (listening_gradeTest test sub.answers).1 = 0 := congrArg Prod.fst hg0
    have h2 : (listening_gradeTest test sub.answers).2.1 = listeningTotalQuestions test := by
      have := congrArg Prod.snd hg0
      exact congrArg Prod.fst this
    refine ⟨{ db with
        submissions := db.submissions.map fun s =>
          if s.id == sid then
            { s with answers := (listening_gradeTest test sub.answers).2.2.1 }
          else s,
        scores := db.scores ++ [⟨sid, 0, listeningTotalQuestions test,
          listening_calculate_band_score 0 (listeningTotalQuestions test), 0⟩] }, ?_⟩
    simp only [listening_grade_submission, hfs, hft, h1, h2]
    norm_num

/-- One grading call on an unchanged reading submission is reproduced
exactly by a second call: same score row, and the stored answers (with
their `is_correct` flags) unchanged; only a duplicate score row is
appended. -/
theorem reading_grade_idem :
    ∀ (db : ReadingDB) (sid : ℕ) (s1 : ScoreRow) (db1 : ReadingDB),
      reading_grade_submission db sid = .ok (some s1, db1) →
      reading_grade_submission db1 sid =
        .ok (some s1, { db1 with scores := db1.scores ++ [s1] }) := by
  intro db sid s1 db1 h
  cases hfs : db.submissions.find? (fun s => s.id == sid) with
  | none =>
    simp only [reading_grade_submission, hfs] at h
    exact absurd h (by simp)
  | some sub =>
    cases hft : db.tests.find? (fun t => t.id == sub.test_id) with
    | none =>
      simp only [reading_grade_submission, hfs, hft] at h
      exact absurd h (by simp)
    | some test =>
      simp only [reading_grade_submission, hfs, hft] at h
      rw [Except.ok.injEq, Prod.mk.injEq, Option.some.injEq] at h
      obtain ⟨hs1, hdb1⟩ := h
      have hps : (sub.id == sid) = true := by
        have := List.find?_some hfs
        exact this
      have hsubs : db1.submissions = db.submissions.map fun s =>
          if s.id == sid then
            { s with answers := (reading_gradeTest test sub.answers).2.2 }
          else s := by
        rw [← hdb1]
      have htests : db1.tests = db.tests := by rw [← hdb1]
      have hfind2 : db1.submissions.find? (fun s => s.id == sid) =
          some { sub with answers := (reading_gradeTest test sub.answers).2.2 } := by
        rw [hsubs, List.find?_map]
        have hcomp : ((fun s : Submission => s.id == sid) ∘ fun s =>
            if s.id == sid then
              { s with answers := (reading_gradeTest test sub.answers).2.2 }
            else s) = fun s : Submission => s.id == sid := by
          funext s
          by_cases hsi : (s.id == sid) = true <;> simp [Function.comp, hsi]
        rw [hcomp, hfs, Option.map_some', if_pos hps]
      have hft2 : db1.tests.find? (fun t => t.id == sub.test_id) = some test := by
        rw [htests]
        exact hft
      have hregrade : reading_gradeTest test
          ((reading_gradeTest test sub.answers).2.2) =
          reading_gradeTest test sub.answers := reading_gradeTest_idem test sub.answers
      simp only [reading_grade_submission, hfind2, hft2, hregrade]
      rw [Except.ok.injEq, Prod.mk.injEq, Option.some.injEq]
      refine ⟨hs1, ?_⟩
      have hdup : db1.submissions.map (fun s =>
          if s.id == sid then
            { s with answers := (reading_gradeTest test sub.answers).2.2 }
          else s) = db1.submissions := by
        rw [hsubs, List.map_map]
        have hcomp2 : ((fun s : Submission =>
            if s.id == sid then
              { s with answers := (reading_gradeTest test sub.answers).2.2 }
            else s) ∘ fun s : Submission =>
            if s.id == sid then
              { s with answers := (reading_gradeTest test sub.answers).2.2 }
            else s) = fun s : Submission =>
            if s.id == sid then
              { s with answers := (reading_gradeTest test sub.answers).2.2 }
            else s := by
          funext s
          by_cases hsi : (s.id == sid) = true <;> simp [Function.comp, hsi]
        rw [hcomp2]
      rw [hdup, hs1]

/-- The listening analogue of `reading_grade_idem`. -/
theorem listening_grade_idem :
    ∀ (db : ListeningDB) (sid : ℕ) (s1 : ScoreRow) (db1 : ListeningDB),
      listening_grade_submission db sid = .ok (some s1, db1) →
      listening_grade_submission db1 sid =
        .ok (some s1, { db1 with scores := db1.scores ++ [s1] }) := by
  intro db sid s1 db1 h
  cases hfs : db.submissions.find? (fun s => s.id == sid) with
  | none =>
    simp only [listening_grade_submission, hfs] at h
    exact absurd h (by simp)
  | some sub =>
    cases hft : db.tests.find? (fun t => t.id == sub.test_id) with
    | none =>
      simp only [listening_grade_submission, hfs, hft] at h
      exact absurd h (by simp)
    | some test =>
      simp only [listening_grade_submission, hfs, hft] at h
      rw [Except.ok.injEq, Prod.mk.injEq, Option.some.injEq] at h
      obtain ⟨hs1, hdb1⟩ := h
      have hps : (sub.id == sid) = true := by
        have := List.find?_some hfs
        exact this
      have e1 := listening_gradeTest_erase test sub.answers
      have hl1 : (listening_gradeTest test sub.answers).2.2.1 =
          (gradeFlat (listeningTestQs test) (0, 0, sub.answers)).2.2 :=
        congrArg (fun x => x.2.2) e1
      have htr : ((listening_gradeTest test
            ((listening_gradeTest test sub.answers).2.2.1)).1,
          (listening_gradeTest test
            ((listening_gradeTest test sub.answers).2.2.1)).2.1,
          (listening_gradeTest test
            ((listening_gradeTest test sub.answers).2.2.1)).2.2.1) =
          ((listening_gradeTest test sub.answers).1,
           (listening_gradeTest test sub.answers).2.1,
           (listening_gradeTest test sub.answers).2.2.1) := by
        rw [listening_gradeTest_erase test
          ((listening_gradeTest test sub.answers).2.2.1), hl1, gradeFlat_idem, ← e1]
      have h1 : (listening_gradeTest test
          ((listening_gradeTest test sub.answers).2.2.1)).1 =
          (listening_gradeTest test sub.answers).1 :=
        congrArg (fun x => x.1) htr
      have h2 : (listening_gradeTest test
          ((listening_gradeTest test sub.answers).2.2.1)).2.1 =
          (listening_gradeTest test sub.answers).2.1 := by
        have := congrArg (fun x => x.2.1) htr
        exact this
      have h3 : (listening_gradeTest test
          ((listening_gradeTest test sub.answers).2.2.1)).2.2.1 =
          (listening_gradeTest test sub.answers).2.2.1 := by
        have := congrArg (fun x => x.2.2) htr
        exact this
      have hsubs : db1.submissions = db.submissions.map fun s =>
          if s.id == sid then
            { s with answers := (listening_gradeTest test sub.answers).2.2.1 }
          else s := by
        rw [← hdb1]
      have htests : db1.tests = db.tests := by rw [← hdb1]
      have hfind2 : db1.submissions.find? (fun s => s.id == sid) =
          some { sub with answers := (listening_gradeTest test sub.answers).2.2.1 } := by
        rw [hsubs, List.find?_map]
        have hcomp : ((fun s : Submission => s.id == sid) ∘ fun s =>
            if s.id == sid then
              { s with answers := (listening_gradeTest test sub.answers).2.2.1 }
            else s) = fun s : Submission => s.id == sid := by
          funext s
          by_cases hsi : (s.id == sid) = true <;> simp [Function.comp, hsi]
        rw [hcomp, hfs, Option.map_some', if_pos hps]
      have hft2 : db1.tests.find? (fun t => t.id == sub.test_id) = some test := by
        rw [htests]
        exact hft
      simp only [listening_grade_submission, hfind2, hft2]
      rw [h1, h2, h3]
      rw [Except.ok.injEq, Prod.mk.injEq, Option.some.injEq]
      refine ⟨hs1, ?_⟩
      have hdup : db1.submissions.map (fun s =>
          if s.id == sid then
            { s with answers := (listening_gradeTest test sub.answers).2.2.1 }
          else s) = db1.submissions := by
        rw [hsubs, List.map_map]
        have hcomp2 : ((fun s : Submission =>
            if s.id == sid then
              { s with answers := (listening_gradeTest test sub.answers).2.2.1 }
            else s) ∘ fun s : Submission =>
            if s.id == sid then
              { s with answers := (listening_gradeTest test sub.answers).2.2.1 }
            else s) = fun s : Submission =>
            if s.id == sid then
              { s with answers := (listening_gradeTest test sub.answers).2.2.1 }
            else s := by
          funext s
          by_cases hsi : (s.id == sid) = true <;> simp [Function.comp, hsi]
        rw [hcomp2]
      rw [hdup, hs1]

/-- The first grading call on the concrete fixture `rdbGraded0`. -/
theorem rdb_first_grade : reading_grade_submission rdbGraded0 1 =
    .ok (some ⟨1, 1, 1, 9, 100⟩, rdbGraded1) := by
  have hg : reading_gradeTest ⟨1, [⟨[⟨1, 1, [(1, ["a"])], true⟩]⟩]⟩
      [⟨1, ["a"], false⟩] = (1, 1, [⟨1, ["a"], true⟩]) := by decide
  simp only [reading_grade_submission, rdbGraded0, List.find?, rdbGraded1]
  norm_num [hg, reading_calculate_band_score]

/-- The first grading call on the concrete fixture `ldbGraded0`. -/
theorem ldb_first_grade : listening_grade_submission ldbGraded0 1 =
    .ok (some ⟨1, 1, 1, 9, 100⟩, ldbGraded1) := by
  have ht : ((listening_gradeTest ⟨1, [⟨"section_1", [⟨1, 1, [(1, ["a"])], true⟩]⟩]⟩
        [⟨1, ["a"], false⟩]).1,
      (listening_gradeTest ⟨1, [⟨"section_1", [⟨1, 1, [(1, ["a"])], true⟩]⟩]⟩
        [⟨1, ["a"], false⟩]).2.1,
      (listening_gradeTest ⟨1, [⟨"section_1", [⟨1, 1, [(1, ["a"])], true⟩]⟩]⟩
        [⟨1, ["a"], false⟩]).2.2.1) = (1, 1, [⟨1, ["a"], true⟩]) := by
    rw [listening_gradeTest_erase]
    decide
  have h1 := congrArg (fun x => x.1) ht
  have h2 := congrArg (fun x => x.2.1) ht
  have h3 := congrArg (fun x => x.2.2) ht
  simp only at h1 h2 h3
  simp only [listening_grade_submission, ldbGraded0, List.find?, ldbGraded1]
  norm_num [h1, h2, h3, listening_calculate_band_score]


/-- C5 witness: instantiation of `C5_not_found_and_unanswered` at the
concrete fixtures. -/
theorem C5_witness :
    reading_grade_submission rdbGraded0 99 = .ok (none, rdbGraded0) ∧
    listening_grade_submission ldbGraded0 99 = .ok (none, ldbGraded0) ∧
    (∃ db', reading_grade_submission rdbEmptyAns 1 =
      .ok (some ⟨1, 0, readingTotalQuestions ⟨1, [⟨[⟨1, 1, [(1, ["a"])], true⟩]⟩]⟩,
        reading_calculate_band_score 0
          (readingTotalQuestions ⟨1, [⟨[⟨1, 1, [(1, ["a"])], true⟩]⟩]⟩), 0⟩, db')) ∧
    (∃ db', listening_grade_submission ldbEmptyAns 1 =
      .ok (some ⟨1, 0,
        listeningTotalQuestions ⟨1, [⟨"section_1", [⟨1, 1, [(1, ["a"])], true⟩]⟩]⟩,
        listening_calculate_band_score 0
          (listeningTotalQuestions
            ⟨1, [⟨"section_1", [⟨1, 1, [(1, ["a"])], true⟩]⟩]⟩), 0⟩, db')) :=
  ⟨C5_not_found_and_unanswered.1 rdbGraded0 99 (by decide),
   C5_not_found_and_unanswered.2.1 ldbGraded0 99 (by decide),
   C5_not_found_and_unanswered.2.2.1 rdbEmptyAns 1 ⟨1, 1, false, []⟩
     ⟨1, [⟨[⟨1, 1, [(1, ["a"])], true⟩]⟩]⟩ (by decide) (by decide) rfl,
   C5_not_found_and_unanswered.2.2.2 ldbEmptyAns 1 ⟨1, 1, false, []⟩
     ⟨1, [⟨"section_1", [⟨1, 1, [(1, ["a"])], true⟩]⟩]⟩ (by decide) (by decide) rfl⟩

/-- C9: grading an unchanged submission twice yields the same correct
count, total, band score and percentage both times, and the second call
leaves every answer row's `is_correct` flag exactly as the first call
set it (the only difference is the duplicate score row the code always
appends). -/
theorem C9_regrade_stable :
    (∀ (db : ReadingDB) (sid : ℕ) (s1 : ScoreRow) (db1 : ReadingDB),
      reading_grade_submission db sid = .ok (some s1, db1) →
      reading_grade_submission db1 sid =
        .ok (some s1, { db1 with scores := db1.scores ++ [s1] })) ∧
    (∀ (db : ListeningDB) (sid : ℕ) (s1 : ScoreRow) (db1 : ListeningDB),
      listening_grade_submission db sid = .ok (some s1, db1) →
      listening_grade_submission db1 sid =
        .ok (some s1, { db1 with scores := db1.scores ++ [s1] })) :=
  ⟨reading_grade_idem, listening_grade_idem⟩

/-- C9 witness: instantiation of `C9_regrade_stable` on the concrete
graded fixtures. -/
theorem C9_witness :
    reading_grade_submission rdbGraded1 1 =
      .ok (some ⟨1, 1, 1, 9, 100⟩,
        { rdbGraded1 with scores := rdbGraded1.scores ++ [⟨1, 1, 1, 9, 100⟩] }) ∧
    listening_grade_submission ldbGraded1 1 =
      .ok (some ⟨1, 1, 1, 9, 100⟩,
        { ldbGraded1 with scores := ldbGraded1.scores ++ [⟨1, 1, 1, 9, 100⟩] }) :=
  ⟨C9_regrade_stable.1 rdbGraded0 1 _ _ rdb_first_grade,
   C9_regrade_stable.2 ldbGraded0 1 _ _ ldb_first_grade⟩


end Ieltsly
